import Mathlib

/-!
Shallow embedding of the pagination-cache / traversal subsystem of the
jules-alt-website client (src/pages/SessionView.tsx, src/workers/activity.worker.ts,
src/services/jules.ts), together with theorems settling the spec claims.

The network is modelled as data: each `listActivities` call consumes the next
element of a list of server responses (`Except Unit Page`, `.error` standing
for a rejected fetch).  React state updates are modelled by explicit state
passing on an `EngineState` record.  localStorage is modelled explicitly for
the cache claims.
-/

namespace Jules

/-! ### Data model (src/services/jules.ts interfaces) -/

/-- Model of `GitPatch` from services/jules.ts: optional unidiffPatch plus other fields. -/
structure GitPatch where
  unidiffPatch : Option String
  baseCommitId : Option String
  suggestedCommitMessage : Option String
  deriving Repr, DecidableEq

/-- Model of `ChangeSet` from services/jules.ts. -/
structure ChangeSet where
  source : Option String
  gitPatch : Option GitPatch
  deriving Repr, DecidableEq

/-- Shape of the `bashOutput` field: `{ output?: string }`. -/
structure BashOutput where
  output : Option String
  deriving Repr, DecidableEq

/-- Model of `Artifact` from services/jules.ts. `media` is kept as its url field. -/
structure Artifact where
  changeSet : Option ChangeSet
  media : Option String
  bashOutput : Option BashOutput
  deriving Repr, DecidableEq

/-- Model of `Activity` from services/jules.ts, restricted to the fields the traversal
subsystem reads: the stable identifier `name` (empty string models a missing
name), `createTime`, a free-form payload standing for the variant fields, and
the optional artifacts list. -/
structure Activity where
  name : String
  createTime : Option String
  payload : String
  artifacts : Option (List Artifact)
  deriving Repr, DecidableEq

/-- One `listActivities` response: `{activities, nextPageToken?}`. -/
structure Page where
  activities : List Activity
  nextPageToken : Option String
  deriving Repr, DecidableEq

/-! ### Worker truncation (src/workers/activity.worker.ts) -/

/-- The constant `maxSize = 20 * 1024` of activity.worker.ts. -/
def maxSize : Nat := 20 * 1024

/-- JavaScript `Math.round (len / 1024)` for a natural `len`. -/
def roundKB (len : Nat) : Nat := (len + 512) / 1024

/-- The truncation applied to an over-long string field:
`s.substring(0, maxSize) + "\n\n... (truncated, " + Math.round(len/1024) + "KB total)"`. -/
def truncateField (s : String) : String :=
  (s.take maxSize) ++ "\n\n... (truncated, " ++ toString (roundKB s.length) ++ "KB total)"

/-- The bashOutput branch of the per-artifact truncation: run only when the
unidiffPatch branch did not return. -/
def truncateBash (a : Artifact) : Artifact :=
  match a.bashOutput with
  | some bo =>
    match bo.output with
    | some o =>
      if o.length > maxSize then
        { a with bashOutput := some { output := some (truncateField o) } }
      else a
    | none => a
  | none => a

/-- Per-artifact truncation from activity.worker.ts.  The JS checks
`artifact.changeSet?.gitPatch?.unidiffPatch` (truthy) and returns early when
the patch is over-long, so in that case the bashOutput field is not examined. -/
def truncateArtifact (a : Artifact) : Artifact :=
  match a.changeSet with
  | some cs =>
    match cs.gitPatch with
    | some gp =>
      match gp.unidiffPatch with
      | some p =>
        if p.length > maxSize then
          let gp2 : GitPatch := { gp with unidiffPatch := some (truncateField p) }
          let cs2 : ChangeSet := { cs with gitPatch := some gp2 }
          { a with changeSet := some cs2 }
        else truncateBash a
      | none => truncateBash a
    | none => truncateBash a
  | none => truncateBash a

/-- Function `truncateActivities` from activity.worker.ts: identity when the toggle is
off; otherwise maps every activity, skipping those without an artifacts list. -/
def truncateActivities (acts : List Activity) (truncateDiffs : Bool) : List Activity :=
  if !truncateDiffs then acts
  else acts.map fun act =>
    match act.artifacts with
    | none => act
    | some arts => { act with artifacts := some (arts.map truncateArtifact) }

/-! ### Engine state (SessionView.tsx component state) -/

/-- The React state of SessionView relevant to the traversal engine.
`tokens` is the cursor ledger, `(topIndex, bottomIndex)` the traversal
position, `activities` the activity window.  `catchingUpGuard` models
`catchingUpRef.current`, `loadingMoreGuard` models `loadingMoreRef.current`,
`isCatchingUp` / `loading` / `loadingMore` the corresponding useState flags. -/
structure EngineState where
  tokens : List String
  topIndex : Nat
  bottomIndex : Nat
  activities : List Activity
  hasMoreHistory : Bool
  loading : Bool
  isCatchingUp : Bool
  catchingUpGuard : Bool
  loadingMore : Bool
  loadingMoreGuard : Bool
  error : Option String
  deriving Repr, DecidableEq

/-- The ledger append used at every `nextPageToken` site:
`if (!updatedTokens.includes(t)) updatedTokens.push(t)`. -/
def appendTok (ts : List String) (c : String) : List String :=
  if c ∈ ts then ts else ts ++ [c]

/-- Value of `prev.map(a => a.name).filter(Boolean)`: the non-empty names occurring in a
window (the `existingNames` set of `catchUp`, kept as a list). -/
def namedNames (acts : List Activity) : List String :=
  (acts.map (·.name)).filter (· ≠ "")

/-- The dedup-append inside the `setActivities` updater of `catchUp`:
`existingNames = new Set(prev.map(a => a.name).filter(Boolean))`;
`uniqueNewActs = newActs.filter(a => !a.name || !existingNames.has(a.name))`;
result `[...prev, ...uniqueNewActs]`. -/
def dedupAppend (prev newActs : List Activity) : List Activity :=
  prev ++ newActs.filter (fun a => a.name = "" ∨ a.name ∉ namedNames prev)

/-! ### Forward catch-up (SessionView.tsx `catchUp`) -/

/-- The `while (true)` loop body of `catchUp`.  One server response is consumed
per iteration; a `.error` response models a rejected `listActivities` promise,
which aborts the loop leaving all React state committed so far in place.
`currentIndex` and `updatedTokens` are the loop-local variables of the source;
`s.tokens` is only written when a genuinely new token is pushed (the source
calls `setTokens` only inside the `!updatedTokens.includes(...)` branch).
Returns the committed state and whether the loop exited normally. -/
def catchUpAux (td : Bool) :
    List (Except Unit Page) → Nat → List String → EngineState → EngineState × Bool
  | [], _, _, s => (s, true)
  | .error _ :: _, _, _, s => (s, false)
  | .ok page :: rest, currentIndex, updatedTokens, s =>
    let newActs := truncateActivities page.activities td
    let s1 := { s with activities := dedupAppend s.activities newActs }
    match page.nextPageToken with
    | some t =>
      let tokens2 := appendTok updatedTokens t
      let s2 := if t ∈ updatedTokens then s1 else { s1 with tokens := tokens2 }
      catchUpAux td rest (currentIndex + 1) tokens2 { s2 with bottomIndex := currentIndex + 1 }
    | none => (s1, true)

/-- Function `catchUp` from SessionView.tsx.  Returns early when `catchingUpRef.current`
is set; otherwise sets the ref and `isCatchingUp`, runs the loop from
`tokens[bottomIndex]`, and clears both flags after the loop — the source has no
try/finally here, so when the loop aborts on a rejected fetch the clearing code
is never reached and both flags stay set. -/
def catchUp (td : Bool) (responses : List (Except Unit Page)) (s : EngineState) : EngineState :=
  if s.catchingUpGuard then s
  else
    let s0 := { s with catchingUpGuard := true, isCatchingUp := true }
    let (s1, completed) := catchUpAux td responses s.bottomIndex s.tokens s0
    if completed then { s1 with isCatchingUp := false, catchingUpGuard := false } else s1

/-! ### Backward pagination (SessionView.tsx `loadMore`) -/

/-- Function `loadMore` from SessionView.tsx.  Second component: the cursors actually
passed to `listActivities` ( `[]` when the guard made the call a no-op).
The fetch uses `tokens[topIndex - 1]`; on success the processed page is
prepended, `topIndex` decremented, and "more history" becomes `newTopIndex > 0`;
on failure the error message is set and the guards are released in the catch. -/
def loadMore (td : Bool) (response : Except Unit Page) (s : EngineState) :
    EngineState × List String :=
  if s.topIndex = 0 ∨ s.loadingMoreGuard then (s, [])
  else
    let prevToken := s.tokens.getD (s.topIndex - 1) ""
    let s1 := { s with loadingMoreGuard := true, loadingMore := true }
    match response with
    | .error _ =>
      ({ s1 with error := some "Failed to load more activities.",
                 loadingMore := false, loadingMoreGuard := false }, [prevToken])
    | .ok page =>
      let newActivities := truncateActivities page.activities td
      ({ s1 with loadingMore := false, loadingMoreGuard := false,
                 activities := newActivities ++ s1.activities,
                 topIndex := s.topIndex - 1,
                 hasMoreHistory := decide (s.topIndex - 1 > 0) }, [prevToken])

/-! ### Initial positioning (SessionView.tsx `loadData`) -/

/-- Intermediate result of a positioning loop. -/
structure CatchLoopOut where
  state : EngineState
  updatedTokens : List String
  acc : List Activity
  fetched : List String
  loadingReleasedAfterPage : Option Nat
  deriving Repr, DecidableEq

/-- Result of a full `loadData` run: final state, the cursors fetched in
order, the `saveCache(tokens, lastActivityTime)` call made at the end, and
after how many pages the full-page loading indicator was released. -/
structure LoadResult where
  state : EngineState
  fetched : List String
  saved : Option (List String × Option String)
  loadingReleasedAfterPage : Option Nat
  deriving Repr, DecidableEq

/-- The catch-up loop of the cache-hit branch of `loadData`.  `acc` is the
`initialActivities` array of the source; each iteration replaces the window with the
accumulator (`setActivities([...initialActivities])`), releases the loading
indicator on the first batch, and on a `nextPageToken` appends it to
`updatedTokens` (if new) and sets `bottomIndex` to `updatedTokens.length - 1`. -/
def loadCachedAux (td : Bool) :
    List Page → String → List String → List Activity → Bool → EngineState → CatchLoopOut
  | [], _, updatedTokens, acc, _, s => ⟨s, updatedTokens, acc, [], none⟩
  | page :: rest, currentToken, updatedTokens, acc, isFirstBatch, s =>
    let newActs := truncateActivities page.activities td
    let acc2 := acc ++ newActs
    let s1 := { s with activities := acc2 }
    let s2 := if isFirstBatch then { s1 with loading := false } else s1
    match page.nextPageToken with
    | some t =>
      let tokens2 := appendTok updatedTokens t
      let s3 := { s2 with bottomIndex := tokens2.length - 1 }
      let out := loadCachedAux td rest t tokens2 acc2 false s3
      { out with fetched := currentToken :: out.fetched,
                 loadingReleasedAfterPage :=
                   if isFirstBatch then some 1 else out.loadingReleasedAfterPage }
    | none => ⟨s2, updatedTokens, acc2, [currentToken],
               if isFirstBatch then some 1 else none⟩

/-- The RETURNING-VISIT branch of `loadData` (valid cache, `tokens.length > 1`):
`startIndex = cachedTokens.length - 1`, `topIndex = bottomIndex = startIndex`,
"more history" `= startIndex > 0`, then the forward loop from the last cached
token, then `setTokens(updatedTokens)` and `saveCache(updatedTokens,
lastActivity?.createTime)`; the finally-block clears `loading`/`isCatchingUp`. -/
def loadDataCached (td : Bool) (cachedTokens : List String) (responses : List Page) :
    LoadResult :=
  let startIndex := cachedTokens.length - 1
  let currentToken := cachedTokens.getD startIndex ""
  let s0 : EngineState :=
    { tokens := cachedTokens, topIndex := startIndex, bottomIndex := startIndex,
      activities := [], hasMoreHistory := decide (startIndex > 0),
      loading := true, isCatchingUp := true, catchingUpGuard := false,
      loadingMore := false, loadingMoreGuard := false, error := none }
  let out := loadCachedAux td responses currentToken cachedTokens [] true s0
  let final : EngineState :=
    { out.state with tokens := out.updatedTokens, isCatchingUp := false, loading := false }
  { state := final,
    fetched := out.fetched,
    saved := some (out.updatedTokens, out.acc.getLast?.bind (·.createTime)),
    loadingReleasedAfterPage := out.loadingReleasedAfterPage }

/-- The catch-up loop of the FRESH-VISIT branch of `loadData`.  Unlike the cache-hit
branch it tracks `currentIndex` and does `currentIndex++` /
`setBottomIndex(currentIndex)` on every `nextPageToken`, new or not. -/
def loadFreshAux (td : Bool) :
    List Page → String → Nat → List String → List Activity → Bool → EngineState → CatchLoopOut
  | [], _, _, updatedTokens, acc, _, s => ⟨s, updatedTokens, acc, [], none⟩
  | page :: rest, currentToken, currentIndex, updatedTokens, acc, isFirstBatch, s =>
    let newActs := truncateActivities page.activities td
    let acc2 := acc ++ newActs
    let s1 := { s with activities := acc2 }
    let s2 := if isFirstBatch then { s1 with loading := false } else s1
    match page.nextPageToken with
    | some t =>
      let tokens2 := appendTok updatedTokens t
      let s3 := { s2 with bottomIndex := currentIndex + 1 }
      let out := loadFreshAux td rest t (currentIndex + 1) tokens2 acc2 false s3
      { out with fetched := currentToken :: out.fetched,
                 loadingReleasedAfterPage :=
                   if isFirstBatch then some 1 else out.loadingReleasedAfterPage }
    | none => ⟨s2, updatedTokens, acc2, [currentToken],
               if isFirstBatch then some 1 else none⟩

/-- The FRESH-VISIT branch of `loadData`: seed ledger `[""]`, `topIndex =
bottomIndex = 0`, no history above, loop from the empty cursor, then
`setTokens` and `saveCache`; the finally-block clears `loading`/`isCatchingUp`. -/
def loadDataFresh (td : Bool) (responses : List Page) : LoadResult :=
  let s0 : EngineState :=
    { tokens := [""], topIndex := 0, bottomIndex := 0,
      activities := [], hasMoreHistory := false,
      loading := true, isCatchingUp := true, catchingUpGuard := false,
      loadingMore := false, loadingMoreGuard := false, error := none }
  let out := loadFreshAux td responses "" 0 [""] [] true s0
  let final : EngineState :=
    { out.state with tokens := out.updatedTokens, isCatchingUp := false, loading := false }
  { state := final,
    fetched := out.fetched,
    saved := some (out.updatedTokens, out.acc.getLast?.bind (·.createTime)),
    loadingReleasedAfterPage := out.loadingReleasedAfterPage }

/-! ### History cache (SessionView.tsx `loadCache` / `saveCache`) -/

/-- A JSON value, the possible results of a successful `JSON.parse`. -/
inductive JVal where
  | null
  | bool (b : Bool)
  | num (n : Int)
  | str (s : String)
  | arr (xs : List JVal)
  | obj (fields : List (String × JVal))

/-- What a localStorage key can hold: nothing, a string that `JSON.parse`
rejects, or a string parsing to a JSON value. -/
inductive Stored where
  | absent
  | malformed
  | val (j : JVal)

/-- Property access `parsed.f` on a JSON value: a field of an object,
`undefined` (here `none`) otherwise. -/
def JVal.getField (j : JVal) (f : String) : Option JVal :=
  match j with
  | .obj fields => (fields.find? (fun p => p.1 == f)).map (·.2)
  | _ => none

/-- Check `Array.isArray(x) && x.every(t => typeof t === "string")`, extracting the
strings. -/
def JVal.asStringArray (j : Option JVal) : Option (List String) :=
  match j with
  | some (.arr xs) =>
    xs.foldr (fun x acc =>
      match x, acc with
      | .str s, some ss => some (s :: ss)
      | _, _ => none) (some [])
  | _ => none

/-- The validated cache entry `loadCache` returns. -/
structure CacheEntry where
  tokens : List String
  lastActivityTime : Option String
  lastUpdate : Int
  deriving Repr, DecidableEq

/-- The structural validation of the main cache record in `loadCache`:
`parsed && typeof parsed === "object" && Array.isArray(parsed.tokens) &&
parsed.tokens.length > 0 && parsed.tokens.every(t => typeof t === "string")`.
Only objects can carry a `tokens` field, so this reduces to the field check. -/
def validCacheTokens (j : JVal) : Option (List String) :=
  match JVal.asStringArray (j.getField "tokens") with
  | some ts => if ts.length > 0 then some ts else none
  | none => none

/-- The legacy-format validation: a bare array of strings with
`parsed.length > 1`. -/
def validLegacyTokens (j : JVal) : Option (List String) :=
  match JVal.asStringArray (some j) with
  | some ts => if ts.length > 1 then some ts else none
  | none => none

/-- The extraction of the optional fields, with defaults:
`typeof parsed.lastActivityTime === "string" ? ... : undefined` and
`typeof parsed.lastUpdate === "number" ? ... : 0`. -/
def extractEntry (j : JVal) (ts : List String) : CacheEntry :=
  { tokens := ts,
    lastActivityTime :=
      match j.getField "lastActivityTime" with
      | some (.str s) => some s
      | _ => none,
    lastUpdate :=
      match j.getField "lastUpdate" with
      | some (.num n) => n
      | _ => 0 }

/-- The legacy fallback path of `loadCache` (reached when the main record is
absent or parses to an invalid shape).  A malformed legacy string throws inside
the same try-block, so the catch removes BOTH keys. -/
def loadCacheLegacy (sessionRec legacyRec : Stored) :
    Option CacheEntry × Stored × Stored :=
  match legacyRec with
  | .absent => (none, sessionRec, legacyRec)
  | .malformed => (none, .absent, .absent)
  | .val j =>
    match validLegacyTokens j with
    | some ts => (some { tokens := ts, lastActivityTime := none, lastUpdate := 0 },
                  sessionRec, legacyRec)
    | none => (none, sessionRec, legacyRec)

/-- Function `loadCache` from SessionView.tsx, over the two localStorage keys
(`jules_session_` record, `jules_tokens_` legacy record).  Returns the result
and the post-call contents of the two keys.  `localStorage.removeItem` runs
only in the catch-block, i.e. only when `JSON.parse` throws; a record that
parses but fails the structural validation is merely warned about and left in
place ("Invalid cache structure, ignoring"). -/
def loadCache (sessionRec legacyRec : Stored) : Option CacheEntry × Stored × Stored :=
  match sessionRec with
  | .malformed => (none, .absent, .absent)
  | .absent => loadCacheLegacy sessionRec legacyRec
  | .val j =>
    match validCacheTokens j with
    | some ts => (some (extractEntry j ts), sessionRec, legacyRec)
    | none => loadCacheLegacy sessionRec legacyRec

/-- The guard `loadData` applies to the loaded entry before choosing the
returning-visit path: `cache && cache.tokens.length > 1`. -/
def hasValidCache (c : Option CacheEntry) : Bool :=
  match c with
  | some e => e.tokens.length > 1
  | none => false

/-! ### Spec-side definitions (from the wording of the specification, for the
refinement-style claims) -/

/-- Modelled from the spec: "the distinct new cursors in first-appearance
order" — the subsequence of `cs` consisting of the first occurrence of each
cursor not already known in `ts`. -/
def firstNew (ts : List String) : List String → List String
  | [] => []
  | c :: cs => if c ∈ ts then firstNew ts cs else c :: firstNew (ts ++ [c]) cs

/-- The cursors a catch-up loop receives from the server before it stops
(a missing token or a rejected fetch ends the loop). -/
def receivedTokens : List (Except Unit Page) → List String
  | [] => []
  | .error _ :: _ => []
  | .ok p :: rest =>
    match p.nextPageToken with
    | some t => t :: receivedTokens rest
    | none => []

/-- The cursors a positioning loop receives from the server before it stops. -/
def pagesTokens : List Page → List String
  | [] => []
  | p :: rest =>
    match p.nextPageToken with
    | some t => t :: pagesTokens rest
    | none => []

/-- The no-duplicate property of the spec, read on the stable identifiers:
no two entries of the window share a non-empty name. -/
def nodupNamed (acts : List Activity) : Prop :=
  (namedNames acts).Nodup

instance (acts : List Activity) : Decidable (nodupNamed acts) :=
  inferInstanceAs (Decidable (namedNames acts).Nodup)

/-- Accessor for `artifact.changeSet?.gitPatch?.unidiffPatch`. -/
def patchOf (a : Artifact) : Option String :=
  (a.changeSet.bind (·.gitPatch)).bind (·.unidiffPatch)

/-- Accessor for `artifact.bashOutput?.output`. -/
def outputOf (a : Artifact) : Option String :=
  a.bashOutput.bind (·.output)

/-! ### Concrete fixtures for witnesses and counterexamples -/

/-- A named activity. -/
def actA : Activity := { name := "a", createTime := some "T1", payload := "pa", artifacts := none }

/-- Another named activity. -/
def actB : Activity := { name := "b", createTime := some "T2", payload := "pb", artifacts := none }

/-- An activity with no (empty) name. -/
def actNoName : Activity :=
  { name := "", createTime := some "T0", payload := "pn", artifacts := none }

/-- A string one character longer than the 20 KiB truncation threshold. -/
def bigStr : String := String.mk (List.replicate (maxSize + 1) 'x')

/-- An artifact whose unidiffPatch AND bashOutput.output both exceed the
truncation threshold. -/
def artBoth : Artifact :=
  let gp : GitPatch :=
    { unidiffPatch := some bigStr, baseCommitId := some "b0",
      suggestedCommitMessage := some "m" }
  { changeSet := some { source := some "src", gitPatch := some gp },
    media := some "mu",
    bashOutput := some { output := some bigStr } }

/-- An activity carrying `artBoth`. -/
def actBoth : Activity :=
  { name := "big", createTime := some "T3", payload := "pp", artifacts := some [artBoth] }

/-- An artifact with only an over-long unidiffPatch. -/
def artLongPatch : Artifact :=
  let gp : GitPatch :=
    { unidiffPatch := some bigStr, baseCommitId := none, suggestedCommitMessage := none }
  { changeSet := some { source := none, gitPatch := some gp },
    media := none,
    bashOutput := none }

/-- The state reached by a fresh load of a two-page session (pages at cursors
`""` and `"c1"`): ledger `["", "c1"]`, `topIndex = 0`, `bottomIndex = 1`. -/
def s2page : EngineState :=
  (loadDataFresh true [⟨[actA], some "c1"⟩, ⟨[actB], none⟩]).state

/-- The state reached by a fresh load of a one-page session whose single
activity has no name. -/
def sNoName : EngineState :=
  (loadDataFresh true [⟨[actNoName], none⟩]).state

/-- The state reached by a returning visit with cached ledger `["", "c1"]`
whose catch-up returns one final page containing `actA`. -/
def sCached : EngineState :=
  (loadDataCached true ["", "c1"] [⟨[actA], none⟩]).state

/-- A third named activity, not present in any fixture window. -/
def actC : Activity := { name := "c", createTime := some "T4", payload := "pc", artifacts := none }

/-- A persisted cache record whose ledger field is a number instead of an
array of strings (spec Scenario D). -/
def badRecord : JVal := .obj [("tokens", .num 5)]

/-! ## Theorems -/

/-- C1 (code_bug): the traversal-position invariant
`0 ≤ topIndex ≤ bottomIndex ≤ ledgerLength - 1` is NOT preserved by `catchUp`.
Starting from the reachable state after a fresh load of a two-page session
(ledger `["", "c1"]`, `bottomIndex = 1`), a catch-up whose first response
carries the already-present next cursor `"c1"` does not append it, yet still
executes `currentIndex++; setBottomIndex(currentIndex)`: afterwards
`bottomIndex = 2` while the last ledger index is still `1`. -/
theorem catchUp_bottomIndex_overrun :
    s2page.tokens = ["", "c1"] ∧ s2page.topIndex = 0 ∧ s2page.bottomIndex = 1 ∧
    (catchUp true [.ok ⟨[], some "c1"⟩, .ok ⟨[], none⟩] s2page).tokens = ["", "c1"] ∧
    (catchUp true [.ok ⟨[], some "c1"⟩, .ok ⟨[], none⟩] s2page).bottomIndex = 2 ∧
    ¬ ((catchUp true [.ok ⟨[], some "c1"⟩, .ok ⟨[], none⟩] s2page).bottomIndex ≤
        (catchUp true [.ok ⟨[], some "c1"⟩, .ok ⟨[], none⟩] s2page).tokens.length - 1) := by
  decide

/-- C3 (code_bug): `catchUp` has no try/finally, so a rejected fetch leaves
`catchingUpRef.current` and `isCatchingUp` set.  After a failing catch-up from
a reachable state, a second `catchUp` — even one whose server response carries
brand-new data — returns immediately without changing anything: the
single-flight guard is never released and the triggers become no-ops, contrary
to the claim that the engine remains usable. -/
theorem catchUp_guard_stuck_after_failure :
    (catchUp true [.error ()] s2page).catchingUpGuard = true ∧
    (catchUp true [.error ()] s2page).isCatchingUp = true ∧
    catchUp true [.ok ⟨[actC], none⟩] (catchUp true [.error ()] s2page) =
      catchUp true [.error ()] s2page := by
  decide

/-- C4 counterexample: for the record of spec Scenario D (ledger field a
number, not a sequence of strings) `loadCache` returns null but does NOT
delete the stored record — deletion happens only in the catch-block, which a
record that parses cleanly never reaches. -/
theorem loadCache_badRecord_not_deleted :
    (loadCache (.val badRecord) .absent).1 = none ∧
    (loadCache (.val badRecord) .absent).2.1 = Stored.val badRecord ∧
    Stored.val badRecord ≠ Stored.absent :=
  ⟨rfl, rfl, fun h => nomatch h⟩

/-- C4 (amended): for every persisted record that parses but fails the
structural validation, `load` returns null and subsequent positioning follows
the cache-miss (fresh) path, but the record is left in storage; only a stored
string that fails to parse is deleted (the catch removes both keys). -/
theorem loadCache_invalid_behavior (j : JVal) (hinv : validCacheTokens j = none) :
    (loadCache (.val j) .absent).1 = none ∧
    (loadCache (.val j) .absent).2.1 = Stored.val j ∧
    hasValidCache (loadCache (.val j) .absent).1 = false ∧
    (loadCache .malformed .absent).1 = none ∧
    (loadCache .malformed .absent).2.1 = Stored.absent ∧
    (loadCache .malformed .absent).2.2 = Stored.absent := by
  simp [loadCache, loadCacheLegacy, hinv, hasValidCache]

/-- Witness for `loadCache_invalid_behavior` at the Scenario D record. -/
theorem loadCache_invalid_behavior_witness :
    (loadCache (.val badRecord) .absent).1 = none ∧
    (loadCache (.val badRecord) .absent).2.1 = Stored.val badRecord ∧
    hasValidCache (loadCache (.val badRecord) .absent).1 = false ∧
    (loadCache .malformed .absent).1 = none ∧
    (loadCache .malformed .absent).2.1 = Stored.absent ∧
    (loadCache .malformed .absent).2.2 = Stored.absent :=
  loadCache_invalid_behavior badRecord rfl

/-- C6: cache-hit positioning, spec Scenario B.  With cached ledger
`["", "c1", "c2"]` and a server returning a page with new cursor `"c3"` then a
final page, positioning fetches from `"c2"` and `"c3"` only, ends with ledger
`["", "c1", "c2", "c3"]`, `topIndex = 2`, `bottomIndex = 3`, more history
available, releases the full-page loading indicator after the first page, and
persists the updated ledger with the latest activity timestamp. -/
theorem cacheHit_positioning :
    (loadDataCached true ["", "c1", "c2"] [⟨[actA], some "c3"⟩, ⟨[actB], none⟩]).state.tokens
      = ["", "c1", "c2", "c3"] ∧
    (loadDataCached true ["", "c1", "c2"] [⟨[actA], some "c3"⟩, ⟨[actB], none⟩]).state.topIndex
      = 2 ∧
    (loadDataCached true ["", "c1", "c2"] [⟨[actA], some "c3"⟩, ⟨[actB], none⟩]).state.bottomIndex
      = 3 ∧
    (loadDataCached true ["", "c1", "c2"] [⟨[actA], some "c3"⟩, ⟨[actB], none⟩]).state.hasMoreHistory
      = true ∧
    (loadDataCached true ["", "c1", "c2"] [⟨[actA], some "c3"⟩, ⟨[actB], none⟩]).fetched
      = ["c2", "c3"] ∧
    (loadDataCached true ["", "c1", "c2"] [⟨[actA], some "c3"⟩, ⟨[actB], none⟩]).saved
      = some (["", "c1", "c2", "c3"], some "T2") ∧
    (loadDataCached true ["", "c1", "c2"] [⟨[actA], some "c3"⟩, ⟨[actB], none⟩]).loadingReleasedAfterPage
      = some 1 := by
  decide

/-- C5 counterexample: catch-up is not idempotent when the final page holds a
nameless activity.  From the reachable one-page state whose window already
contains the nameless activity, each further catch-up appends another copy
(the dedup filter passes every activity with a falsy name), so the window
after the second call differs from the window after the first. -/
theorem catchUp_not_idempotent_nameless :
    (catchUp true [.ok ⟨[actNoName], none⟩]
        (catchUp true [.ok ⟨[actNoName], none⟩] sNoName)).activities ≠
      (catchUp true [.ok ⟨[actNoName], none⟩] sNoName).activities := by
  decide

/-- Truncation never changes the stable identifier of an activity. -/
theorem truncateActivities_names (acts : List Activity) (td : Bool) :
    (truncateActivities acts td).map (·.name) = acts.map (·.name) := by
  unfold truncateActivities
  split
  · rfl
  · rw [List.map_map]
    apply List.map_congr_left
    intro a _
    simp only [Function.comp_apply]
    cases h : a.artifacts <;> simp [h]

/-- Membership in the non-empty-name list of a window. -/
theorem mem_namedNames {s : String} {acts : List Activity} :
    s ∈ namedNames acts ↔ s ≠ "" ∧ ∃ a ∈ acts, a.name = s := by
  simp only [namedNames, List.mem_filter, List.mem_map, decide_eq_true_eq]
  constructor
  · rintro ⟨⟨a, ha, rfl⟩, hne⟩
    exact ⟨hne, a, ha, rfl⟩
  · rintro ⟨hne, a, ha, rfl⟩
    exact ⟨⟨a, ha, rfl⟩, hne⟩

/-- Re-appending the same batch of named activities is absorbed by the dedup
filter: every surviving name is already in the window. -/
theorem dedupAppend_idem (x n : List Activity) (h : ∀ a ∈ n, a.name ≠ "") :
    dedupAppend (dedupAppend x n) n = dedupAppend x n := by
  have hnil :
      n.filter (fun a => decide (a.name = "" ∨ a.name ∉ namedNames (dedupAppend x n))) = [] := by
    rw [List.filter_eq_nil_iff]
    intro a ha
    simp only [decide_eq_true_eq, not_or, not_not]
    refine ⟨h a ha, ?_⟩
    rw [mem_namedNames]
    refine ⟨h a ha, ?_⟩
    by_cases hx : a.name ∈ namedNames x
    · rcases mem_namedNames.1 hx with ⟨_, b, hb, hbn⟩
      exact ⟨b, List.mem_append_left _ hb, hbn⟩
    · refine ⟨a, List.mem_append_right _ ?_, rfl⟩
      rw [List.mem_filter]
      exact ⟨ha, by simp [hx]⟩
  conv_lhs => rw [dedupAppend]
  rw [hnil, List.append_nil]

/-- C5 (amended): invoking `catchUp` twice in a row, the server returning the
same final page with no next cursor both times, leaves the Activity Window,
the ledger, and the Traversal Position after the second call identical to
their values after the first call, PROVIDED every activity on that page
carries a non-empty stable identifier (the dedup filter always re-appends
nameless activities, so idempotence holds only for named ones). -/
theorem catchUp_idempotent (td : Bool) (p : Page) (s : EngineState)
    (hg : s.catchingUpGuard = false) (hnp : p.nextPageToken = none)
    (hnames : ∀ a ∈ p.activities, a.name ≠ "") :
    (catchUp td [.ok p] (catchUp td [.ok p] s)).activities
      = (catchUp td [.ok p] s).activities ∧
    (catchUp td [.ok p] (catchUp td [.ok p] s)).tokens = (catchUp td [.ok p] s).tokens ∧
    (catchUp td [.ok p] (catchUp td [.ok p] s)).topIndex = (catchUp td [.ok p] s).topIndex ∧
    (catchUp td [.ok p] (catchUp td [.ok p] s)).bottomIndex
      = (catchUp td [.ok p] s).bottomIndex := by
  have hnames2 : ∀ a ∈ truncateActivities p.activities td, a.name ≠ "" := by
    intro a ha
    have hmap := truncateActivities_names p.activities td
    have : a.name ∈ (truncateActivities p.activities td).map (·.name) :=
      List.mem_map_of_mem _ ha
    rw [hmap] at this
    rcases List.mem_map.1 this with ⟨b, hb, hbe⟩
    rw [← hbe]
    exact hnames b hb
  simp [catchUp, catchUpAux, hg, hnp, dedupAppend_idem _ _ hnames2]

/-- Witness for `catchUp_idempotent`: the final page holds the named activity
`actC`, the state is the reachable cached-visit state. -/
theorem catchUp_idempotent_witness :
    (catchUp true [.ok ⟨[actC], none⟩] (catchUp true [.ok ⟨[actC], none⟩] sCached)).activities
      = (catchUp true [.ok ⟨[actC], none⟩] sCached).activities ∧
    (catchUp true [.ok ⟨[actC], none⟩] (catchUp true [.ok ⟨[actC], none⟩] sCached)).tokens
      = (catchUp true [.ok ⟨[actC], none⟩] sCached).tokens ∧
    (catchUp true [.ok ⟨[actC], none⟩] (catchUp true [.ok ⟨[actC], none⟩] sCached)).topIndex
      = (catchUp true [.ok ⟨[actC], none⟩] sCached).topIndex ∧
    (catchUp true [.ok ⟨[actC], none⟩] (catchUp true [.ok ⟨[actC], none⟩] sCached)).bottomIndex
      = (catchUp true [.ok ⟨[actC], none⟩] sCached).bottomIndex :=
  catchUp_idempotent true ⟨[actC], none⟩ sCached (by decide) rfl
    (by intro a ha; rcases List.mem_singleton.1 ha with rfl; decide)

/-- C2 counterexample: an older-load prepends its page with no deduplication.
From the reachable cached-visit state whose window already holds the activity
named `"a"`, a `loadMore` whose page returns that same activity leaves two
entries with the stable identifier `"a"` in the window. -/
theorem loadMore_introduces_duplicate :
    ((loadMore true (.ok ⟨[actA], none⟩) sCached).1.activities.map (·.name)) = ["a", "a"] ∧
    ¬ (((loadMore true (.ok ⟨[actA], none⟩) sCached).1.activities.map (·.name)).Nodup) := by
  decide

/-- The non-empty names of a concatenation. -/
theorem namedNames_append (x y : List Activity) :
    namedNames (x ++ y) = namedNames x ++ namedNames y := by
  simp [namedNames]

/-- The function `namedNames` is monotone along sublists. -/
theorem namedNames_sublist {l n : List Activity} (h : l.Sublist n) :
    (namedNames l).Sublist (namedNames n) :=
  (h.map _).filter _

/-- The dedup-append of `catchUp` preserves the no-duplicate-names property
when the incoming batch has no internal duplicates. -/
theorem dedupAppend_nodupNamed (prev n : List Activity)
    (hp : nodupNamed prev) (hn : nodupNamed n) : nodupNamed (dedupAppend prev n) := by
  unfold nodupNamed at *
  rw [dedupAppend, namedNames_append, List.nodup_append]
  refine ⟨hp, hn.sublist (namedNames_sublist (List.filter_sublist _)), ?_⟩
  intro s hs hs2
  rcases mem_namedNames.1 hs2 with ⟨hne, a, ha, rfl⟩
  rcases List.mem_filter.1 ha with ⟨-, hpa⟩
  simp only [decide_eq_true_eq] at hpa
  rcases hpa with h0 | h0
  · exact hne h0
  · exact h0 hs

/-- The catch-up loop preserves the no-duplicate-names property when every
successfully fetched page has no internal duplicate names (after processing). -/
theorem catchUpAux_nodupNamed (td : Bool) :
    ∀ (responses : List (Except Unit Page)) (i : Nat) (ts : List String) (s : EngineState),
      (∀ p, Except.ok p ∈ responses → nodupNamed (truncateActivities p.activities td)) →
      nodupNamed s.activities →
      nodupNamed (catchUpAux td responses i ts s).1.activities := by
  intro responses
  induction responses with
  | nil => intro i ts s _ hs; exact hs
  | cons r rest ih =>
    intro i ts s hpages hs
    match r with
    | .error e => exact hs
    | .ok p =>
      have hpage := hpages p (List.mem_cons_self _ _)
      have hded : nodupNamed (dedupAppend s.activities (truncateActivities p.activities td)) :=
        dedupAppend_nodupNamed _ _ hs hpage
      have hrest : ∀ q, Except.ok q ∈ rest → nodupNamed (truncateActivities q.activities td) :=
        fun q hq => hpages q (List.mem_cons_of_mem _ hq)
      cases hnp : p.nextPageToken with
      | none => simpa [catchUpAux, hnp] using hded
      | some t =>
        by_cases ht : t ∈ ts
        · simpa [catchUpAux, hnp, ht] using ih (i + 1) (appendTok ts t) _ hrest hded
        · simpa [catchUpAux, hnp, ht] using ih (i + 1) (appendTok ts t) _ hrest hded

/-- C2 (amended): after any sequence of catch-up fetches whose pages each
contain no repeated names, the Activity Window contains no two entries with
the same non-empty stable identifier — catch-up deduplicates its appends
against the window; an older-load, by contrast, prepends its page with no
deduplication and can duplicate entries when the page overlaps the window
(see the counterexample). -/
theorem catchUp_no_duplicate_names (td : Bool) (responses : List (Except Unit Page))
    (s : EngineState)
    (hpages : ∀ p, Except.ok p ∈ responses → nodupNamed (truncateActivities p.activities td))
    (hs : nodupNamed s.activities) :
    nodupNamed (catchUp td responses s).activities := by
  rw [catchUp]
  by_cases hg : s.catchingUpGuard
  · simpa [hg] using hs
  · have haux := catchUpAux_nodupNamed td responses s.bottomIndex s.tokens
      { s with catchingUpGuard := true, isCatchingUp := true } hpages hs
    simp only [hg]
    cases hres : catchUpAux td responses s.bottomIndex s.tokens
        { s with catchingUpGuard := true, isCatchingUp := true } with
    | mk s1 completed =>
      rw [hres] at haux
      cases completed <;> simpa using haux

/-- Witness for `catchUp_no_duplicate_names`: one page carrying the fresh
named activity `actC`, applied to the reachable cached-visit state. -/
theorem catchUp_no_duplicate_names_witness :
    nodupNamed (catchUp true [.ok ⟨[actC], none⟩] sCached).activities :=
  catchUp_no_duplicate_names true [.ok ⟨[actC], none⟩] sCached
    (by
      intro p hp
      have hpe : p = ⟨[actC], none⟩ := Except.ok.inj (List.mem_singleton.1 hp)
      rw [hpe]
      decide)
    (by decide)

/-- C7: backward pagination.  `loadMore` is a no-op — no fetch issued, no
state change — when `topIndex = 0` or another older-load is in flight;
otherwise it issues exactly one fetch using the cursor at ledger position
`topIndex - 1`, prepends the processed page to the window preserving order,
decrements `topIndex`, sets "more history available" to `newTopIndex > 0`,
and leaves the ledger and `bottomIndex` untouched. -/
theorem loadMore_backward_pagination (td : Bool) (page : Page) (r : Except Unit Page)
    (s : EngineState) :
    ((s.topIndex = 0 ∨ s.loadingMoreGuard = true) → loadMore td r s = (s, [])) ∧
    (s.topIndex ≠ 0 → s.loadingMoreGuard = false →
      (loadMore td (.ok page) s).2 = [s.tokens.getD (s.topIndex - 1) ""] ∧
      (loadMore td (.ok page) s).1.activities
        = truncateActivities page.activities td ++ s.activities ∧
      (loadMore td (.ok page) s).1.topIndex = s.topIndex - 1 ∧
      (loadMore td (.ok page) s).1.hasMoreHistory = decide (s.topIndex - 1 > 0) ∧
      (loadMore td (.ok page) s).1.tokens = s.tokens ∧
      (loadMore td (.ok page) s).1.bottomIndex = s.bottomIndex) := by
  constructor
  · intro h
    rcases h with h | h <;> simp [loadMore, h]
  · intro h1 h2
    simp [loadMore, h1, h2]

/-- Witness for `loadMore_backward_pagination`: the no-op branch at the
reachable fresh one-page state (`topIndex = 0`) and the fetching branch at the
reachable cached-visit state (`topIndex = 1`, guard clear). -/
theorem loadMore_backward_pagination_witness :
    (loadMore true (.ok ⟨[actC], none⟩) sNoName = (sNoName, [])) ∧
    ((loadMore true (.ok ⟨[actC], none⟩) sCached).2
        = [sCached.tokens.getD (sCached.topIndex - 1) ""] ∧
      (loadMore true (.ok ⟨[actC], none⟩) sCached).1.activities
        = truncateActivities [actC] true ++ sCached.activities ∧
      (loadMore true (.ok ⟨[actC], none⟩) sCached).1.topIndex = sCached.topIndex - 1 ∧
      (loadMore true (.ok ⟨[actC], none⟩) sCached).1.hasMoreHistory
        = decide (sCached.topIndex - 1 > 0) ∧
      (loadMore true (.ok ⟨[actC], none⟩) sCached).1.tokens = sCached.tokens ∧
      (loadMore true (.ok ⟨[actC], none⟩) sCached).1.bottomIndex = sCached.bottomIndex) :=
  ⟨(loadMore_backward_pagination true ⟨[actC], none⟩ (.ok ⟨[actC], none⟩) sNoName).1
      (Or.inl (by decide)),
   (loadMore_backward_pagination true ⟨[actC], none⟩ (.ok ⟨[actC], none⟩) sCached).2
      (by decide) (by decide)⟩

/-- C10 (implicit): the deduplication in `catchUp` applies only to activities with
a non-empty name.  An activity whose name is empty is always appended — its
multiplicity in the window grows by its multiplicity in the fetched batch,
even when an identical copy is already present — while an activity carrying a
non-empty name that already occurs in the window is never appended again. -/
theorem dedup_only_named (prev newActs : List Activity) (a : Activity) :
    (a.name = "" →
      (dedupAppend prev newActs).count a = prev.count a + newActs.count a) ∧
    (a.name ≠ "" → (∃ b ∈ prev, b.name = a.name) →
      (dedupAppend prev newActs).count a = prev.count a) := by
  constructor
  · intro h
    rw [dedupAppend, List.count_append, List.count_filter (by simp [h])]
  · intro h1 h2
    rw [dedupAppend, List.count_append]
    have hnm : a ∉ newActs.filter (fun x => decide (x.name = "" ∨ x.name ∉ namedNames prev)) := by
      intro hmem
      rcases List.mem_filter.1 hmem with ⟨-, hpa⟩
      simp only [decide_eq_true_eq] at hpa
      rcases hpa with h0 | h0
      · exact h1 h0
      · apply h0
        rw [mem_namedNames]
        rcases h2 with ⟨b, hb, hbn⟩
        exact ⟨h1, b, hb, hbn⟩
    rw [List.count_eq_zero.2 hnm]
    exact Nat.add_zero _

/-- Witness for `dedup_only_named`: a nameless activity is re-appended beside
its identical copy; a named activity already in the window is not. -/
theorem dedup_only_named_witness :
    ((dedupAppend [actNoName] [actNoName]).count actNoName
        = [actNoName].count actNoName + [actNoName].count actNoName) ∧
    ((dedupAppend [actA] [actA]).count actA = [actA].count actA) :=
  ⟨(dedup_only_named [actNoName] [actNoName] actNoName).1 rfl,
   (dedup_only_named [actA] [actA] actA).2 (by decide) ⟨actA, by simp, rfl⟩⟩

/-- Folding the push-if-absent append of the code over a cursor sequence only ever
extends the ledger, by exactly the first-appearance-order distinct new
cursors. -/
theorem foldl_appendTok (cs : List String) :
    ∀ ts : List String, List.foldl appendTok ts cs = ts ++ firstNew ts cs := by
  induction cs with
  | nil => intro ts; simp [firstNew]
  | cons c cs ih =>
    intro ts
    by_cases h : c ∈ ts
    · simp [List.foldl_cons, appendTok, firstNew, h, ih ts]
    · simp only [List.foldl_cons, appendTok, firstNew, h, if_neg, if_false, ite_false]
      rw [ih (ts ++ [c]), List.append_assoc]
      rfl

/-- The push-if-absent append never creates a duplicate cursor. -/
theorem nodup_foldl_appendTok (cs : List String) :
    ∀ ts : List String, ts.Nodup → (List.foldl appendTok ts cs).Nodup := by
  induction cs with
  | nil => intro ts h; exact h
  | cons c cs ih =>
    intro ts h
    rw [List.foldl_cons]
    apply ih
    rw [appendTok]
    by_cases hc : c ∈ ts
    · rwa [if_pos hc]
    · rw [if_neg hc]
      simp [List.nodup_append, h, hc]

/-- Within a catch-up loop the ledger evolves exactly by folding the
push-if-absent append over the received cursors (the React `tokens` state and
the loop-local `updatedTokens` stay equal throughout). -/
theorem catchUpAux_tokens (td : Bool) :
    ∀ (responses : List (Except Unit Page)) (i : Nat) (ts : List String) (s : EngineState),
      s.tokens = ts →
      (catchUpAux td responses i ts s).1.tokens
        = List.foldl appendTok ts (receivedTokens responses) := by
  intro responses
  induction responses with
  | nil => intro i ts s h; simpa [catchUpAux, receivedTokens] using h
  | cons r rest ih =>
    intro i ts s h
    match r with
    | .error e => simpa [catchUpAux, receivedTokens] using h
    | .ok p =>
      cases hnp : p.nextPageToken with
      | none => simpa [catchUpAux, receivedTokens, hnp] using h
      | some t =>
        by_cases ht : t ∈ ts
        · rw [catchUpAux]
          simp only [hnp, ht, if_pos, ite_true]
          rw [receivedTokens]
          simp only [hnp, List.foldl_cons]
          have : appendTok ts t = ts := by rw [appendTok, if_pos ht]
          rw [this]
          exact ih (i + 1) ts _ h
        · rw [catchUpAux]
          simp only [hnp, ht, if_neg, ite_false]
          rw [receivedTokens]
          simp only [hnp, List.foldl_cons]
          have hap : appendTok ts t = ts ++ [t] := by rw [appendTok, if_neg ht]
          rw [hap]
          exact ih (i + 1) (ts ++ [t]) _ (by simp [hap])

/-- Within a fresh positioning loop the local `updatedTokens` evolves by the
same fold over the received cursors. -/
theorem loadFreshAux_tokens (td : Bool) :
    ∀ (pages : List Page) (ct : String) (i : Nat) (ts : List String)
      (acc : List Activity) (fb : Bool) (s : EngineState),
      (loadFreshAux td pages ct i ts acc fb s).updatedTokens
        = List.foldl appendTok ts (pagesTokens pages) := by
  intro pages
  induction pages with
  | nil => intro ct i ts acc fb s; simp [loadFreshAux, pagesTokens]
  | cons p rest ih =>
    intro ct i ts acc fb s
    cases hnp : p.nextPageToken with
    | none => simp [loadFreshAux, pagesTokens, hnp]
    | some t =>
      rw [loadFreshAux]
      simp only [hnp]
      rw [pagesTokens]
      simp only [hnp, List.foldl_cons]
      exact ih t (i + 1) (appendTok ts t) _ false _

/-- Within a cache-hit positioning loop the local `updatedTokens` evolves by
the same fold over the received cursors. -/
theorem loadCachedAux_tokens (td : Bool) :
    ∀ (pages : List Page) (ct : String) (ts : List String)
      (acc : List Activity) (fb : Bool) (s : EngineState),
      (loadCachedAux td pages ct ts acc fb s).updatedTokens
        = List.foldl appendTok ts (pagesTokens pages) := by
  intro pages
  induction pages with
  | nil => intro ct ts acc fb s; simp [loadCachedAux, pagesTokens]
  | cons p rest ih =>
    intro ct ts acc fb s
    cases hnp : p.nextPageToken with
    | none => simp [loadCachedAux, pagesTokens, hnp]
    | some t =>
      rw [loadCachedAux]
      simp only [hnp]
      rw [pagesTokens]
      simp only [hnp, List.foldl_cons]
      exact ih t (appendTok ts t) _ false _

/-- C8: ledger monotonicity.  Every ledger-mutating operation (catch-up,
fresh positioning, cache-hit positioning) evolves the ledger by folding the
push-if-absent append over the cursors it receives; that fold yields the seed
`[""]` followed by the distinct new cursors in first-appearance order, never
re-appends a present cursor (the result has no duplicates), keeps `""` at
index 0, and only ever extends the ledger (never shrinks it). -/
theorem ledger_monotonicity (td : Bool) (cs ts : List String)
    (responses : List (Except Unit Page)) (pages qages : List Page)
    (cachedTokens : List String) (s : EngineState) (hg : s.catchingUpGuard = false) :
    ((catchUp td responses s).tokens
        = List.foldl appendTok s.tokens (receivedTokens responses)) ∧
    ((loadDataFresh td pages).state.tokens
        = List.foldl appendTok [""] (pagesTokens pages)) ∧
    ((loadDataCached td cachedTokens qages).state.tokens
        = List.foldl appendTok cachedTokens (pagesTokens qages)) ∧
    (List.foldl appendTok [""] cs = "" :: firstNew [""] cs) ∧
    ((List.foldl appendTok [""] cs).Nodup) ∧
    (List.foldl appendTok ts cs = ts ++ firstNew ts cs) := by
  refine ⟨?_, ?_, ?_, ?_, ?_, foldl_appendTok cs ts⟩
  · rw [catchUp]
    simp only [hg, Bool.false_eq_true, if_false, ite_false]
    have haux := catchUpAux_tokens td responses s.bottomIndex s.tokens
      { s with catchingUpGuard := true, isCatchingUp := true } rfl
    cases hres : catchUpAux td responses s.bottomIndex s.tokens
        { s with catchingUpGuard := true, isCatchingUp := true } with
    | mk s1 completed =>
      rw [hres] at haux
      cases completed <;> simpa using haux
  · rw [loadDataFresh]
    exact loadFreshAux_tokens td pages "" 0 [""] [] true _
  · rw [loadDataCached]
    exact loadCachedAux_tokens td qages _ cachedTokens [] true _
  · exact foldl_appendTok cs [""]
  · exact nodup_foldl_appendTok cs [""] (by simp)

/-- Witness for `ledger_monotonicity` at concrete cursors, pages and the
reachable cached-visit state. -/
theorem ledger_monotonicity_witness :
    ((catchUp true [.ok ⟨[actC], some "c2"⟩, .ok ⟨[], none⟩] sCached).tokens
        = List.foldl appendTok sCached.tokens
            (receivedTokens [.ok ⟨[actC], some "c2"⟩, .ok ⟨[], none⟩])) ∧
    ((loadDataFresh true [⟨[actA], some "c1"⟩, ⟨[actB], none⟩]).state.tokens
        = List.foldl appendTok [""] (pagesTokens [⟨[actA], some "c1"⟩, ⟨[actB], none⟩])) ∧
    ((loadDataCached true ["", "c1"] [⟨[actA], none⟩]).state.tokens
        = List.foldl appendTok ["", "c1"] (pagesTokens [⟨[actA], none⟩])) ∧
    (List.foldl appendTok [""] ["c1", "", "c1", "c2"]
        = "" :: firstNew [""] ["c1", "", "c1", "c2"]) ∧
    ((List.foldl appendTok [""] ["c1", "", "c1", "c2"]).Nodup) ∧
    (List.foldl appendTok ["", "c1"] ["c1", "", "c1", "c2"]
        = ["", "c1"] ++ firstNew ["", "c1"] ["c1", "", "c1", "c2"]) :=
  ledger_monotonicity true ["c1", "", "c1", "c2"] ["", "c1"]
    [.ok ⟨[actC], some "c2"⟩, .ok ⟨[], none⟩]
    [⟨[actA], some "c1"⟩, ⟨[actB], none⟩] [⟨[actA], none⟩]
    ["", "c1"] sCached (by decide)

/-- The fixture string is one character over the threshold. -/
theorem bigStr_length : bigStr.length = maxSize + 1 := by
  rw [bigStr]
  show (List.replicate (maxSize + 1) 'x').length = maxSize + 1
  exact List.length_replicate _ _

/-- C9 counterexample: with truncation on, an artifact whose unidiffPatch and
bashOutput.output BOTH exceed 20 KiB only has the patch truncated — the early
return in the patch branch skips the bashOutput check, so the over-long
output survives unchanged, contrary to the claim that every over-long field
is replaced. -/
theorem truncate_skips_long_output :
    (truncateActivities [actBoth] true).map (fun a => a.artifacts.map (List.map (·.bashOutput)))
      = [some [some { output := some bigStr }]] ∧
    bigStr.length > maxSize := by
  have hlen : bigStr.length = maxSize + 1 := bigStr_length
  constructor
  · simp [truncateActivities, actBoth, truncateArtifact, artBoth, truncateBash, hlen,
      Nat.lt_succ_self]
  · rw [hlen]
    exact Nat.lt_succ_self _

/-- An over-long unidiffPatch is truncated and the rest of the artifact —
including its bashOutput — is returned unchanged. -/
theorem truncateArtifact_longPatch (a : Artifact) (p : String)
    (hp : patchOf a = some p) (hl : p.length > maxSize) :
    patchOf (truncateArtifact a) = some (truncateField p) ∧
    (truncateArtifact a).bashOutput = a.bashOutput ∧
    (truncateArtifact a).media = a.media := by
  rcases a with ⟨ocs, om, obo⟩
  rcases ocs with _ | cs
  · simp [patchOf] at hp
  rcases cs with ⟨osrc, ogp⟩
  rcases ogp with _ | gp
  · simp [patchOf] at hp
  rcases gp with ⟨oup, obc, oscm⟩
  rcases oup with _ | q
  · simp [patchOf] at hp
  simp only [patchOf, Option.bind] at hp
  rcases Option.some.inj hp with rfl
  simp [truncateArtifact, patchOf, hl]

/-- When the patch is absent or within the threshold, an over-long
bashOutput.output is truncated and the rest of the artifact is unchanged. -/
theorem truncateArtifact_longOutput (a : Artifact) (o : String)
    (hpshort : ∀ q, patchOf a = some q → q.length ≤ maxSize)
    (ho : outputOf a = some o) (hl : o.length > maxSize) :
    outputOf (truncateArtifact a) = some (truncateField o) ∧
    (truncateArtifact a).changeSet = a.changeSet ∧
    (truncateArtifact a).media = a.media := by
  rcases a with ⟨ocs, om, obo⟩
  rcases obo with _ | bo
  · simp [outputOf] at ho
  rcases bo with ⟨oout⟩
  rcases oout with _ | q
  · simp [outputOf] at ho
  simp only [outputOf, Option.bind] at ho
  rcases Option.some.inj ho with rfl
  rcases ocs with _ | cs
  · simp [truncateArtifact, truncateBash, outputOf, hl]
  rcases cs with ⟨osrc, ogp⟩
  rcases ogp with _ | gp
  · simp [truncateArtifact, truncateBash, outputOf, hl]
  rcases gp with ⟨oup, obc, oscm⟩
  rcases oup with _ | q2
  · simp [truncateArtifact, truncateBash, outputOf, hl]
  · have hq2 : ¬ (q2.length > maxSize) :=
      Nat.not_lt.2 (hpshort q2 (by simp [patchOf, Option.bind]))
    simp [truncateArtifact, truncateBash, outputOf, hl, hq2]

/-- An artifact with neither field over the threshold is returned unchanged. -/
theorem truncateArtifact_id (a : Artifact)
    (hp : ∀ q, patchOf a = some q → q.length ≤ maxSize)
    (ho : ∀ q, outputOf a = some q → q.length ≤ maxSize) :
    truncateArtifact a = a := by
  rcases a with ⟨ocs, om, obo⟩
  have hbash : ∀ (x : Artifact), x.bashOutput = obo → x = truncateBash x := by
    intro x hx
    rcases obo with _ | bo
    · rw [truncateBash, hx]
    rcases bo with ⟨oout⟩
    rcases oout with _ | q
    · rw [truncateBash, hx]
    · have hq : ¬ (q.length > maxSize) :=
        Nat.not_lt.2 (ho q (by simp [outputOf, Option.bind]))
      rw [truncateBash, hx]
      simp [hq]
  rcases ocs with _ | cs
  · exact (hbash _ rfl).symm
  rcases cs with ⟨osrc, ogp⟩
  rcases ogp with _ | gp
  · exact (hbash _ rfl).symm
  rcases gp with ⟨oup, obc, oscm⟩
  rcases oup with _ | q2
  · exact (hbash _ rfl).symm
  · have hq2 : ¬ (q2.length > maxSize) :=
      Nat.not_lt.2 (hp q2 (by simp [patchOf, Option.bind]))
    rw [truncateArtifact]
    simp only [hq2, if_neg, ite_false]
    exact (hbash _ rfl).symm

set_option maxRecDepth 4000 in
/-- C9 (amended): with the toggle off the processing function returns the
list unchanged; with it on, activities are mapped one-to-one (count and order
preserved) and per artifact AT MOST ONE field is truncated: an over-long
unidiffPatch is replaced by its first 20 KiB plus the truncation marker with
every other field — including an over-long bashOutput — left unchanged; only
when the patch is absent or within the threshold is an over-long
bashOutput.output truncated likewise; an artifact with neither field
over-long is unchanged. -/
theorem truncateActivities_spec (acts : List Activity) (a : Artifact) (p o : String) :
    (truncateActivities acts false = acts) ∧
    ((truncateActivities acts true).length = acts.length) ∧
    (patchOf a = some p → p.length > maxSize →
      patchOf (truncateArtifact a) = some (truncateField p) ∧
      (truncateArtifact a).bashOutput = a.bashOutput ∧
      (truncateArtifact a).media = a.media) ∧
    ((∀ q, patchOf a = some q → q.length ≤ maxSize) → outputOf a = some o →
      o.length > maxSize →
      outputOf (truncateArtifact a) = some (truncateField o) ∧
      (truncateArtifact a).changeSet = a.changeSet ∧
      (truncateArtifact a).media = a.media) ∧
    ((∀ q, patchOf a = some q → q.length ≤ maxSize) →
      (∀ q, outputOf a = some q → q.length ≤ maxSize) →
      truncateArtifact a = a) ∧
    (truncateField p
        = p.take maxSize ++ "\n\n... (truncated, " ++ toString (roundKB p.length)
            ++ "KB total)") := by
  refine ⟨?_, ?_, fun hp hl => truncateArtifact_longPatch a p hp hl,
    fun h1 h2 h3 => truncateArtifact_longOutput a o h1 h2 h3,
    fun h1 h2 => truncateArtifact_id a h1 h2, rfl⟩
  · simp [truncateActivities]
  · simp only [truncateActivities, Bool.not_true, if_neg, ite_false]
    exact List.length_map _ _

/-- Witness for `truncateActivities_spec`: the over-long-patch branch at the
concrete artifact `artLongPatch`, plus the identity facts at a one-element
list. -/
theorem truncateActivities_spec_witness :
    (truncateActivities [actA] false = [actA]) ∧
    ((truncateActivities [actA] true).length = [actA].length) ∧
    (patchOf (truncateArtifact artLongPatch) = some (truncateField bigStr) ∧
      (truncateArtifact artLongPatch).bashOutput = artLongPatch.bashOutput ∧
      (truncateArtifact artLongPatch).media = artLongPatch.media) :=
  have h := truncateActivities_spec [actA] artLongPatch bigStr ""
  ⟨h.1, h.2.1, h.2.2.1 rfl (by rw [bigStr_length]; exact Nat.lt_succ_self _)⟩

end Jules

